import Mathlib

/-!
Shallow embedding of `execution_in_loop.py` (repository
`a-ruggero/curriculum`, folder `Esame Quantum Computing`): the
execution-loop / parameter-sweep engine that repeatedly invokes an
external experiment script across key-length values.

Modelling conventions:
* `executionLoop` and `run_notebook_in_loop` mirror the two Python
  functions of the same names, line by line.
* The external process launcher `subprocess.run(["python", script_name],
  input=inputs, text=True)` is abstracted as an oracle
  `runner : Nat -> RunResult` indexed by the global invocation ordinal
  (how many experiment invocations were attempted before this one).
  `RunResult.exited c` models a completed subprocess whose
  `result.returncode` is `c`; `RunResult.dispatchError` models
  `subprocess.run` raising an exception, which the Python code catches
  in its `except Exception` branch.
* The Python code propagates failure by calling `exit()`, which raises
  `SystemExit` and terminates the whole program; the `except Exception`
  clause does not catch it.  The two `exit()` sites are modelled as the
  distinguished end states `ProgEnd.exitAbort` (nonzero-returncode
  branch, carrying the printed local ordinal `i+1` and the returncode)
  and `ProgEnd.exitFatal` (exception branch).  A normal function return
  is `ProgEnd.returned`.
* Each completed subprocess invocation is recorded as a `RunRecord`:
  the 1-based ordinal within the current key-length value (the number
  printed by `------ EXECUTION NUMBER i+1 ------`), the stdin payload
  fields, the key length in effect, and the returncode.
  `invocations` counts every `subprocess.run` attempt of the experiment
  script, including one that raises.
* The `jupyter nbconvert` call, the `.ipynb` to `.py` name rewriting
  and the interactive input section at the bottom of the file are not
  modelled; the only print that is tracked is the missing-file message
  of `run_notebook_in_loop`, recorded in the `printedMissing` flag.
-/

/-- The Python `key_length` value reaching `executionLoop` or
`run_notebook_in_loop`: `None` (the default), the string 'e', the
string 'i' (range mode), or an integer. -/
inductive KeyLen where
  | nullKey
  | exampleKey
  | rangeKey
  | numKey (n : Int)
  deriving DecidableEq, Repr

/-- The key-length field of the stdin payload: the Python f-string
interpolates `key_length if key_length else` the sentinel letter e,
selecting by truthiness, so `None` and `0` both render as the sentinel
`"e"`; any other integer renders in decimal; the strings 'e' and 'i'
render as themselves. -/
def keyField : KeyLen → String
  | KeyLen.nullKey => "e"
  | KeyLen.exampleKey => "e"
  | KeyLen.rangeKey => "i"
  | KeyLen.numKey n => if n = 0 then "e" else toString n

/-- The stdin payload built inside `executionLoop` (lines 41 to 47 of
the source), as its list of newline-separated fields: device `1` with a
token gives four fields, device `1` without a token and every other
device value give three fields. -/
def buildInputs (dev : Int) (tok : Option String) (kl : KeyLen)
    (filename : String) : List String :=
  if dev = 1 then
    match tok with
    | some t => [toString dev, t, keyField kl, filename]
    | none => [toString dev, keyField kl, filename]
  else
    [toString dev, keyField kl, filename]

/-- Result of one `subprocess.run` call on the experiment script. -/
inductive RunResult where
  | dispatchError
  | exited (returncode : Int)
  deriving DecidableEq, Repr

/-- How the modelled Python control flow ends: a normal function
return, the `exit()` after a nonzero returncode (carrying the printed
local ordinal and the returncode), or the `exit()` in the
`except Exception` branch. -/
inductive ProgEnd where
  | returned
  | exitAbort (ordinal : Nat) (returncode : Int)
  | exitFatal
  deriving DecidableEq, Repr

/-- One completed experiment invocation. -/
structure RunRecord where
  ordinal : Nat
  payload : List String
  keyLengthUsed : KeyLen
  exitStatus : Int
  deriving DecidableEq, Repr

/-- Outcome of (a suffix of) the execution loop: the records of the
completed invocations, the number of `subprocess.run` attempts, and the
end state. -/
structure LoopOut where
  records : List RunRecord
  invocations : Nat
  pend : ProgEnd
  deriving DecidableEq, Repr

/-- The body of the `for i in range(loop_count)` loop of
`executionLoop`, by recursion on the remaining iteration count `m`;
`g` is the global invocation ordinal consumed so far, `i` the Python
loop index of the current iteration. -/
def execLoopAux (runner : Nat → RunResult) (dev : Int) (tok : Option String)
    (kl : KeyLen) (filename : String) : Nat → Nat → Nat → LoopOut
  | _, _, 0 => ⟨[], 0, ProgEnd.returned⟩
  | g, i, m + 1 =>
    match runner g with
    | RunResult.dispatchError => ⟨[], 1, ProgEnd.exitFatal⟩
    | RunResult.exited c =>
      if c = 0 then
        let rest := execLoopAux runner dev tok kl filename (g + 1) (i + 1) m
        ⟨⟨i + 1, buildInputs dev tok kl filename, kl, c⟩ :: rest.records,
          rest.invocations + 1, rest.pend⟩
      else
        ⟨[⟨i + 1, buildInputs dev tok kl filename, kl, c⟩], 1,
          ProgEnd.exitAbort (i + 1) c⟩

/-- `executionLoop(script_name, loop_count, execute_on_which_device,
token, key_length, filename)`.  `g` is the global invocation ordinal
already consumed before this call (`0` for a direct call).  Python
`range(loop_count)` iterates `max 0 loop_count` times, hence
`loop_count.toNat`. -/
def executionLoop (runner : Nat → RunResult) (loop_count : Int) (dev : Int)
    (tok : Option String) (key_length : KeyLen) (filename : String)
    (g : Nat) : LoopOut :=
  execLoopAux runner dev tok key_length filename g 0 loop_count.toNat

/-- Python `range(b, e + 1)` as a list of integers: empty when
`e + 1 <= b`, otherwise `b, b+1, ..., e`. -/
def rangeKeys (b e : Int) : List Int :=
  (List.range (e + 1 - b).toNat).map (fun (j : Nat) => b + (j : Int))

/-- The `for currentKey in range(given_range_begin, given_range_end+1)`
loop of `run_notebook_in_loop`: one `executionLoop` call per key.  The
loop continues only while the inner loop returned normally, because an
`exit()` inside `executionLoop` terminates the whole program. -/
def sweepAux (runner : Nat → RunResult) (loop_count : Int) (dev : Int)
    (tok : Option String) (filename : String) : Nat → List Int → LoopOut
  | _, [] => ⟨[], 0, ProgEnd.returned⟩
  | g, k :: ks =>
    let out := executionLoop runner loop_count dev tok (KeyLen.numKey k) filename g
    if out.pend = ProgEnd.returned then
      let rest := sweepAux runner loop_count dev tok filename (g + out.invocations) ks
      ⟨out.records ++ rest.records, out.invocations + rest.invocations, rest.pend⟩
    else
      ⟨out.records, out.invocations, out.pend⟩

/-- Outcome of one `run_notebook_in_loop` call: records, invocation
attempts, whether the missing-file message was printed, end state. -/
structure SweepOut where
  records : List RunRecord
  invocations : Nat
  printedMissing : Bool
  pend : ProgEnd
  deriving DecidableEq, Repr

/-- `run_notebook_in_loop(notebook_name, loop_count,
execute_on_which_device, token, key_length, filename,
given_range_begin, given_range_end)`.  `nbExists` models the result of
`os.path.exists(notebook_name)`: when false the function only prints
the missing-file message and returns; otherwise it dispatches on
`key_length == 'i'` between the range sweep and a single
`executionLoop` call. -/
def run_notebook_in_loop (runner : Nat → RunResult) (nbExists : Bool)
    (loop_count : Int) (dev : Int) (tok : Option String) (key_length : KeyLen)
    (filename : String) (given_range_begin given_range_end : Int) : SweepOut :=
  if nbExists = false then
    ⟨[], 0, true, ProgEnd.returned⟩
  else if key_length = KeyLen.rangeKey then
    let out := sweepAux runner loop_count dev tok filename 0
      (rangeKeys given_range_begin given_range_end)
    ⟨out.records, out.invocations, false, out.pend⟩
  else
    let out := executionLoop runner loop_count dev tok key_length filename 0
    ⟨out.records, out.invocations, false, out.pend⟩

/-- Total number of experiment invocations a sweep would perform if
every invocation succeeded. -/
def plannedTotal (loop_count : Int) (key_length : KeyLen) (b e : Int) : Nat :=
  if key_length = KeyLen.rangeKey then
    (rangeKeys b e).length * loop_count.toNat
  else loop_count.toNat

/-- Oracle for which every invocation succeeds. -/
def runnerAllOk (_n : Nat) : RunResult := RunResult.exited 0

/-- Oracle succeeding on the first `f` invocations, then always
reporting returncode `code`. -/
def runnerFailAt (f : Nat) (code : Int) (n : Nat) : RunResult :=
  if n < f then RunResult.exited 0 else RunResult.exited code

/-- Oracle succeeding on the first `f` invocations, then always raising
at dispatch. -/
def runnerDispatchAt (f : Nat) (n : Nat) : RunResult :=
  if n < f then RunResult.exited 0 else RunResult.dispatchError

example : executionLoop runnerAllOk 3 0 Option.none (KeyLen.numKey 42) "/r.csv" 0 =
    ⟨[⟨1, ["0", "42", "/r.csv"], KeyLen.numKey 42, 0⟩,
      ⟨2, ["0", "42", "/r.csv"], KeyLen.numKey 42, 0⟩,
      ⟨3, ["0", "42", "/r.csv"], KeyLen.numKey 42, 0⟩], 3, ProgEnd.returned⟩ := by
  decide

example : (run_notebook_in_loop (runnerFailAt 1 1) true 5 0 Option.none
    (KeyLen.numKey 7) "f.csv" 0 1).invocations = 2 := by decide

example : (run_notebook_in_loop runnerAllOk true 2 0 Option.none
    KeyLen.rangeKey "f.csv" 197 199).invocations = 6 := by decide

/-- C2 counterexample: the claim says the key-length field is the
integer value rendered as text whenever the spec is not `Example`, but
for a Fixed key length of `0` the code renders the sentinel `"e"`
(truthiness of `key_length`), not the text `"0"`. -/
theorem C2_counterexample :
    buildInputs 0 Option.none (KeyLen.numKey 0) "out.csv" = ["0", "e", "out.csv"] ∧
    buildInputs 0 Option.none (KeyLen.numKey 0) "out.csv" ≠ ["0", "0", "out.csv"] := by
  decide

/-- C2 (amended): the payload is exactly the ordered field sequence of
the 4.1 table for every device/token combination, where the key-length
field is "e" for an `Example` spec and the decimal rendering of the
integer value for a nonzero Fixed value; a Fixed value of `0` also
renders as "e" (the field is chosen by truthiness of the value). -/
theorem C2_payload_table (t path : String) :
    (∀ n : Int, n ≠ 0 →
      buildInputs 1 (some t) (KeyLen.numKey n) path = ["1", t, toString n, path] ∧
      buildInputs 1 Option.none (KeyLen.numKey n) path = ["1", toString n, path] ∧
      buildInputs 0 (some t) (KeyLen.numKey n) path = ["0", toString n, path] ∧
      buildInputs 0 Option.none (KeyLen.numKey n) path = ["0", toString n, path]) ∧
    buildInputs 1 (some t) KeyLen.exampleKey path = ["1", t, "e", path] ∧
    buildInputs 1 Option.none KeyLen.exampleKey path = ["1", "e", path] ∧
    buildInputs 0 (some t) KeyLen.exampleKey path = ["0", "e", path] ∧
    buildInputs 0 Option.none KeyLen.exampleKey path = ["0", "e", path] ∧
    buildInputs 1 (some t) (KeyLen.numKey 0) path = ["1", t, "e", path] ∧
    buildInputs 0 (some t) (KeyLen.numKey 0) path = ["0", "e", path] := by
  have h1 : toString (1 : Int) = "1" := rfl
  have h0 : toString (0 : Int) = "0" := rfl
  refine ⟨fun n hn => ⟨?_, ?_, ?_, ?_⟩, rfl, rfl, rfl, rfl, rfl, rfl⟩ <;>
    simp [buildInputs, keyField, h1, h0, hn]

/-- C2 witness: the amended payload table evaluated at a concrete
token, key length 5 and output path. -/
theorem C2_payload_table_witness :
    buildInputs 1 (some "tok") (KeyLen.numKey 5) "o.csv" = ["1", "tok", "5", "o.csv"] ∧
    buildInputs 0 (some "tok") KeyLen.exampleKey "o.csv" = ["0", "e", "o.csv"] :=
  ⟨((C2_payload_table "tok" "o.csv").1 5 (by decide)).1.trans (by decide),
    (C2_payload_table "tok" "o.csv").2.2.2.1⟩

/-- C8: for a Fixed key length of `0` the payload carries the sentinel
"e" in the key-length position, not the text "0", because the Python
expression selects by truthiness of the value. -/
theorem C8_zero_key_truthiness (t path : String) :
    buildInputs 0 Option.none (KeyLen.numKey 0) path = ["0", "e", path] ∧
    buildInputs 1 (some t) (KeyLen.numKey 0) path = ["1", t, "e", path] ∧
    buildInputs 1 Option.none (KeyLen.numKey 0) path = ["1", "e", path] ∧
    keyField (KeyLen.numKey 0) = "e" ∧
    keyField (KeyLen.numKey 0) ≠ "0" :=
  ⟨rfl, rfl, rfl, rfl, by decide⟩

/-- C9: for every device selector other than `1` the payload takes the
Simulator shape: the token is never included even when supplied, and
the selector value itself is forwarded verbatim (in decimal) as the
first payload field. -/
theorem C9_device_not_one (d : Int) (h : d ≠ 1) (t path : String) (kl : KeyLen) :
    buildInputs d (some t) kl path = [toString d, keyField kl, path] ∧
    buildInputs d Option.none kl path = [toString d, keyField kl, path] := by
  constructor <;> · unfold buildInputs; rw [if_neg h]

/-- C9 witness: device selector `2` with a supplied token still yields
the three-field Simulator shape, with "2" forwarded as first field. -/
theorem C9_device_not_one_witness :
    (2 : Int) ≠ 1 ∧
    buildInputs 2 (some "tk") KeyLen.exampleKey "p.csv" = ["2", "e", "p.csv"] :=
  ⟨by decide,
    ((C9_device_not_one 2 (by decide) "tk" "p.csv" KeyLen.exampleKey).1).trans (by decide)⟩

/-- C10: for a nonpositive repetition count, `range(loop_count)` is
empty, so the execution loop performs zero invocations and returns
normally with no error and no failure report. -/
theorem C10_nonpositive_loop_count (runner : Nat → RunResult) (loop_count : Int)
    (h : loop_count ≤ 0) (dev : Int) (tok : Option String) (kl : KeyLen)
    (path : String) (g : Nat) :
    executionLoop runner loop_count dev tok kl path g = ⟨[], 0, ProgEnd.returned⟩ := by
  unfold executionLoop
  rw [Int.toNat_eq_zero.mpr h]
  rfl

/-- C10 witness: loop count `-3` performs zero invocations and returns
normally. -/
theorem C10_nonpositive_loop_count_witness :
    ((-3 : Int) ≤ 0) ∧
    executionLoop runnerAllOk (-3) 0 Option.none KeyLen.nullKey "p.csv" 0 =
      ⟨[], 0, ProgEnd.returned⟩ :=
  ⟨by decide,
    C10_nonpositive_loop_count runnerAllOk (-3) (by decide) 0 Option.none
      KeyLen.nullKey "p.csv" 0⟩

/-- C3 counterexample: for `Range(begin=10, end=5)` the code raises no
error at all: `range(10, 5+1)` is empty, so the sweep silently skips
the invalid range, performs zero invocations and returns normally —
the very same outcome as a successful empty sweep, with no
`InvalidRangeError` (no such error exists anywhere in the code). -/
theorem C3_counterexample :
    run_notebook_in_loop runnerAllOk true 3 0 Option.none KeyLen.rangeKey
      "o.csv" 10 5 = ⟨[], 0, false, ProgEnd.returned⟩ := by
  decide

/-- C3 (amended): for every `Range` spec with `begin > end`, the core
attempts no invocation, but instead of failing fast with an
`InvalidRangeError` it silently skips the empty range and returns
normally, indistinguishably from a completed sweep. -/
theorem C3_invalid_range_silently_skipped (runner : Nat → RunResult)
    (loop_count : Int) (dev : Int) (tok : Option String) (path : String)
    (b e : Int) (h : e < b) :
    run_notebook_in_loop runner true loop_count dev tok KeyLen.rangeKey path b e =
      ⟨[], 0, false, ProgEnd.returned⟩ := by
  have hr : rangeKeys b e = [] := by
    unfold rangeKeys
    rw [Int.toNat_eq_zero.mpr (by omega)]
    rfl
  simp [run_notebook_in_loop, hr, sweepAux]

/-- C3 witness: the amended statement at the concrete invalid range
`begin = 10, end = 5`. -/
theorem C3_invalid_range_silently_skipped_witness :
    ((5 : Int) < 10) ∧
    run_notebook_in_loop runnerAllOk true 2 1 (some "tk") KeyLen.rangeKey
      "r.csv" 10 5 = ⟨[], 0, false, ProgEnd.returned⟩ :=
  ⟨by decide,
    C3_invalid_range_silently_skipped runnerAllOk 2 1 (some "tk") "r.csv" 10 5
      (by decide)⟩

/-- C6 counterexample: when the experiment path does not exist the code
only prints a message and returns normally; the end state is the very
same `ProgEnd.returned` a fully successful sweep produces, so no typed
`MissingExperimentError` surfaces to the caller — the sweep silently
does not start. -/
theorem C6_counterexample :
    run_notebook_in_loop runnerAllOk false 3 0 Option.none (KeyLen.numKey 8)
      "o.csv" 0 1 = ⟨[], 0, true, ProgEnd.returned⟩ ∧
    (run_notebook_in_loop runnerAllOk true 1 0 Option.none (KeyLen.numKey 8)
      "o.csv" 0 1).pend = ProgEnd.returned := by
  decide

/-- C6 (amended): for every configuration whose experiment path does
not exist, no invocation is attempted and no conversion is run, but the
failure is reported only by printing a message: the function returns
normally, and no typed error distinct from normal completion reaches
the caller. -/
theorem C6_missing_path_prints_only (runner : Nat → RunResult)
    (loop_count : Int) (dev : Int) (tok : Option String) (kl : KeyLen)
    (path : String) (b e : Int) :
    run_notebook_in_loop runner false loop_count dev tok kl path b e =
      ⟨[], 0, true, ProgEnd.returned⟩ := by
  simp [run_notebook_in_loop]

/-- When the runner reports exit status `0` on the whole window of `m`
invocations starting at global ordinal `g`, the loop body completes all
`m` iterations, recording ordinals `i+1, i+2, ...` with the constant
payload, and returns normally. -/
lemma execLoopAux_all_zero (runner : Nat → RunResult) (dev : Int)
    (tok : Option String) (kl : KeyLen) (path : String) (m : Nat) :
    ∀ g i : Nat, (∀ n, g ≤ n → n < g + m → runner n = RunResult.exited 0) →
    execLoopAux runner dev tok kl path g i m =
      ⟨(List.range m).map
          (fun j => ⟨i + 1 + j, buildInputs dev tok kl path, kl, 0⟩),
        m, ProgEnd.returned⟩ := by
  induction m with
  | zero =>
    intro g i _
    rfl
  | succ m ih =>
    intro g i hz
    have h0 : runner g = RunResult.exited 0 := hz g (Nat.le_refl g) (by omega)
    have hrest := ih (g + 1) (i + 1) (fun n h1 h2 => hz n (by omega) (by omega))
    have hmap : (List.range (m + 1)).map
          (fun j => (⟨i + 1 + j, buildInputs dev tok kl path, kl, 0⟩ : RunRecord)) =
        (⟨i + 1, buildInputs dev tok kl path, kl, 0⟩ : RunRecord) ::
          (List.range m).map
            (fun j => (⟨i + 1 + 1 + j, buildInputs dev tok kl path, kl, 0⟩ : RunRecord)) := by
      rw [List.range_succ_eq_map, List.map_cons, List.map_map]
      refine congrArg₂ List.cons rfl ?_
      refine List.map_congr_left (fun a _ => ?_)
      show (⟨i + 1 + (a + 1), buildInputs dev tok kl path, kl, 0⟩ : RunRecord) = _
      congr 1
      omega
    simp only [execLoopAux, h0, hrest, hmap, if_true]

/-- When every invocation succeeds, the range-sweep loop over the key
list `ks` performs `loop_count` invocations per key, in list order,
and returns normally. -/
lemma sweepAux_all_zero (runner : Nat → RunResult) (loop_count : Int)
    (dev : Int) (tok : Option String) (path : String)
    (hz : ∀ n, runner n = RunResult.exited 0) (ks : List Int) :
    ∀ g : Nat, sweepAux runner loop_count dev tok path g ks =
      ⟨ks.flatMap (fun k => (List.range loop_count.toNat).map
          (fun j => ⟨0 + 1 + j, buildInputs dev tok (KeyLen.numKey k) path,
            KeyLen.numKey k, 0⟩)),
        ks.length * loop_count.toNat, ProgEnd.returned⟩ := by
  induction ks with
  | nil =>
    intro g
    simp [sweepAux]
  | cons key ks ih =>
    intro g
    have hloop := execLoopAux_all_zero runner dev tok (KeyLen.numKey key) path
      loop_count.toNat g 0 (fun n _ _ => hz n)
    simp only [sweepAux, executionLoop, hloop, ih, if_true]
    rw [List.flatMap_cons, List.length_cons, Nat.succ_mul,
      Nat.add_comm (ks.length * loop_count.toNat) loop_count.toNat]

/-- Ordinals of a fully successful block of `r` runs are `1, ..., r`. -/
lemma records_map_ordinal (r : Nat) (P : List String) (kl : KeyLen) :
    ((List.range r).map
        (fun j => (⟨0 + 1 + j, P, kl, 0⟩ : RunRecord))).map RunRecord.ordinal =
      (List.range r).map (fun j => j + 1) := by
  rw [List.map_map]
  exact List.map_congr_left (fun a _ => by show 0 + 1 + a = a + 1; omega)

/-- Every record of a fully successful block of `r` runs carries the
key length of that block. -/
lemma records_map_keylen (r : Nat) (P : List String) (kl : KeyLen) :
    ((List.range r).map
        (fun j => (⟨0 + 1 + j, P, kl, 0⟩ : RunRecord))).map RunRecord.keyLengthUsed =
      List.replicate r kl := by
  rw [List.map_map]
  have hc : (RunRecord.keyLengthUsed ∘ fun j => (⟨0 + 1 + j, P, kl, 0⟩ : RunRecord)) =
      fun _ => kl := rfl
  rw [hc, List.map_const', List.length_range]

/-- C5: for a Fixed key length `v` with `r >= 1` repetitions and every
invocation succeeding, the sweep performs exactly `r` invocations with
ordinals `1..r` in order, every record uses key length `v`, and the
sweep ends normally (Completed). -/
theorem C5_fixed_all_success (runner : Nat → RunResult)
    (hz : ∀ n, runner n = RunResult.exited 0) (r : Nat) (_hr : 1 ≤ r)
    (v dev : Int) (tok : Option String) (path : String) (b e : Int) :
    (run_notebook_in_loop runner true (r : Int) dev tok (KeyLen.numKey v) path b e).invocations = r ∧
    (run_notebook_in_loop runner true (r : Int) dev tok (KeyLen.numKey v) path b e).pend =
      ProgEnd.returned ∧
    (run_notebook_in_loop runner true (r : Int) dev tok (KeyLen.numKey v) path b e).records.map
        RunRecord.ordinal = (List.range r).map (fun j => j + 1) ∧
    (run_notebook_in_loop runner true (r : Int) dev tok (KeyLen.numKey v) path b e).records.map
        RunRecord.keyLengthUsed = List.replicate r (KeyLen.numKey v) := by
  have hloop := execLoopAux_all_zero runner dev tok (KeyLen.numKey v) path r 0 0
    (fun n _ _ => hz n)
  have hrun : run_notebook_in_loop runner true (r : Int) dev tok (KeyLen.numKey v) path b e =
      ⟨(List.range r).map
          (fun j => ⟨0 + 1 + j, buildInputs dev tok (KeyLen.numKey v) path,
            KeyLen.numKey v, 0⟩),
        r, false, ProgEnd.returned⟩ := by
    show (⟨(executionLoop runner (r : Int) dev tok (KeyLen.numKey v) path 0).records,
        (executionLoop runner (r : Int) dev tok (KeyLen.numKey v) path 0).invocations, false,
        (executionLoop runner (r : Int) dev tok (KeyLen.numKey v) path 0).pend⟩ : SweepOut) = _
    unfold executionLoop
    rw [Int.toNat_natCast, hloop]
  rw [hrun]
  exact ⟨rfl, rfl, records_map_ordinal r _ _, records_map_keylen r _ _⟩

/-- C5 witness: Scenario A — three repetitions at Fixed key length 42
on the simulator, all succeeding: 3 records, ordinals 1,2,3, normal
end. -/
theorem C5_fixed_all_success_witness :
    (run_notebook_in_loop runnerAllOk true 3 0 Option.none (KeyLen.numKey 42)
      "/r.csv" 0 0).invocations = 3 ∧
    (run_notebook_in_loop runnerAllOk true 3 0 Option.none (KeyLen.numKey 42)
      "/r.csv" 0 0).pend = ProgEnd.returned ∧
    (run_notebook_in_loop runnerAllOk true 3 0 Option.none (KeyLen.numKey 42)
      "/r.csv" 0 0).records.map RunRecord.ordinal = [1, 2, 3] :=
  have h := C5_fixed_all_success runnerAllOk (fun _ => rfl) 3 (by decide) 42 0
    Option.none "/r.csv" 0 0
  ⟨h.1, h.2.1, h.2.2.1.trans (by decide)⟩

/-- C4: for `Range(b, e)` with `b <= e`, `r >= 1` repetitions and every
invocation succeeding, the sweep performs exactly `r * (e - b + 1)`
invocations, the key-length sequence across records is `b` repeated `r`
times, then `b+1` repeated `r` times, and so on up to `e` (the key list
`rangeKeys b e` being strictly ascending), and the sweep ends normally
(Completed). -/
theorem C4_range_all_success (runner : Nat → RunResult)
    (hz : ∀ n, runner n = RunResult.exited 0) (r : Nat) (_hr : 1 ≤ r)
    (b e : Int) (hbe : b ≤ e) (dev : Int) (tok : Option String) (path : String) :
    ((run_notebook_in_loop runner true (r : Int) dev tok KeyLen.rangeKey path b e).invocations : Int) =
      (r : Int) * (e - b + 1) ∧
    (run_notebook_in_loop runner true (r : Int) dev tok KeyLen.rangeKey path b e).pend =
      ProgEnd.returned ∧
    (run_notebook_in_loop runner true (r : Int) dev tok KeyLen.rangeKey path b e).records.map
        RunRecord.keyLengthUsed =
      (rangeKeys b e).flatMap (fun k => List.replicate r (KeyLen.numKey k)) ∧
    List.Pairwise (· < ·) (rangeKeys b e) := by
  have hsweep := sweepAux_all_zero runner (r : Int) dev tok path hz (rangeKeys b e) 0
  rw [Int.toNat_natCast] at hsweep
  have hrun : run_notebook_in_loop runner true (r : Int) dev tok KeyLen.rangeKey path b e =
      ⟨((rangeKeys b e).flatMap (fun k => (List.range r).map
          (fun j => ⟨0 + 1 + j, buildInputs dev tok (KeyLen.numKey k) path,
            KeyLen.numKey k, 0⟩))),
        (rangeKeys b e).length * r, false, ProgEnd.returned⟩ := by
    show (⟨(sweepAux runner (r : Int) dev tok path 0 (rangeKeys b e)).records,
        (sweepAux runner (r : Int) dev tok path 0 (rangeKeys b e)).invocations, false,
        (sweepAux runner (r : Int) dev tok path 0 (rangeKeys b e)).pend⟩ : SweepOut) = _
    rw [hsweep]
  have hlen : (((rangeKeys b e).length : Nat) : Int) = e - b + 1 := by
    unfold rangeKeys
    rw [List.length_map, List.length_range, Int.toNat_of_nonneg (show (0:Int) ≤ e + 1 - b by omega)]
    omega
  refine ⟨?_, ?_, ?_, ?_⟩
  · rw [hrun]
    show (((rangeKeys b e).length * r : Nat) : Int) = _
    rw [Nat.cast_mul, hlen]
    ring
  · rw [hrun]
  · rw [hrun]
    show ((rangeKeys b e).flatMap _).map RunRecord.keyLengthUsed = _
    rw [List.map_flatMap]
    have hfun : (fun k => ((List.range r).map
          (fun j => (⟨0 + 1 + j, buildInputs dev tok (KeyLen.numKey k) path,
            KeyLen.numKey k, 0⟩ : RunRecord))).map RunRecord.keyLengthUsed) =
        fun k => List.replicate r (KeyLen.numKey k) :=
      funext (fun k => records_map_keylen r _ _)
    rw [hfun]
  · unfold rangeKeys
    exact List.Pairwise.map (fun (j : Nat) => b + (j : Int))
      (fun a b' (h : a < b') => by show b + (a : Int) < b + (b' : Int); omega)
      (List.pairwise_lt_range _)

/-- C4 witness: Scenario B — `Range(197, 199)` with two repetitions,
all succeeding: 6 invocations, key sequence
197,197,198,198,199,199, normal end. -/
theorem C4_range_all_success_witness :
    ((run_notebook_in_loop runnerAllOk true 2 0 Option.none KeyLen.rangeKey
      "w.csv" 197 199).invocations : Int) = 6 ∧
    (run_notebook_in_loop runnerAllOk true 2 0 Option.none KeyLen.rangeKey
      "w.csv" 197 199).pend = ProgEnd.returned ∧
    (run_notebook_in_loop runnerAllOk true 2 0 Option.none KeyLen.rangeKey
      "w.csv" 197 199).records.map RunRecord.keyLengthUsed =
      [KeyLen.numKey 197, KeyLen.numKey 197, KeyLen.numKey 198, KeyLen.numKey 198,
        KeyLen.numKey 199, KeyLen.numKey 199] :=
  have h := C4_range_all_success runnerAllOk (fun _ => rfl) 2 (by decide) 197 199
    (by decide) 0 Option.none "w.csv"
  ⟨h.1.trans (by decide), h.2.1, h.2.2.1.trans (by decide)⟩

/-- If the runner succeeds on the first `d` invocations of the window
and reports nonzero returncode `c` on the next one, with `d` inside the
iteration budget `m`, the loop records `d + 1` invocations (the failing
one included) and the program exits through the abort branch. -/
lemma execLoopAux_first_fail (runner : Nat → RunResult) (dev : Int)
    (tok : Option String) (kl : KeyLen) (path : String) (c : Int)
    (hc : c ≠ 0) (m : Nat) :
    ∀ g i d : Nat, d < m →
      (∀ n, g ≤ n → n < g + d → runner n = RunResult.exited 0) →
      runner (g + d) = RunResult.exited c →
      (execLoopAux runner dev tok kl path g i m).invocations = d + 1 ∧
      (execLoopAux runner dev tok kl path g i m).records.length = d + 1 ∧
      (execLoopAux runner dev tok kl path g i m).pend =
        ProgEnd.exitAbort (i + 1 + d) c := by
  induction m with
  | zero =>
    intro g i d hd
    omega
  | succ m ih =>
    intro g i d hd hz hf
    cases d with
    | zero =>
      have h0 : runner g = RunResult.exited c := hf
      simp only [execLoopAux, h0]
      rw [if_neg hc]
      exact ⟨rfl, rfl, rfl⟩
    | succ d =>
      have h0 : runner g = RunResult.exited 0 := hz g (Nat.le_refl g) (by omega)
      have hf' : runner (g + 1 + d) = RunResult.exited c := by
        have hgd : g + 1 + d = g + (d + 1) := by omega
        rw [hgd]
        exact hf
      have ihh := ih (g + 1) (i + 1) d (by omega)
        (fun n h1 h2 => hz n (by omega) (by omega)) hf'
      simp only [execLoopAux, h0, if_true]
      refine ⟨?_, ?_, ?_⟩
      · show (execLoopAux runner dev tok kl path (g + 1) (i + 1) m).invocations + 1 = _
        rw [ihh.1]
      · show (execLoopAux runner dev tok kl path (g + 1) (i + 1) m).records.length + 1 = _
        rw [ihh.2.1]
      · show (execLoopAux runner dev tok kl path (g + 1) (i + 1) m).pend = _
        rw [ihh.2.2]
        have : i + 1 + 1 + d = i + 1 + (d + 1) := by omega
        rw [this]

/-- If the runner succeeds on the first `d` invocations of the window
and raises at dispatch on the next one, with `d` inside the iteration
budget `m`, the loop counts `d + 1` attempts but only `d` records (the
failed dispatch produces no exit status), and the program exits through
the exception branch. -/
lemma execLoopAux_dispatch_fail (runner : Nat → RunResult) (dev : Int)
    (tok : Option String) (kl : KeyLen) (path : String) (m : Nat) :
    ∀ g i d : Nat, d < m →
      (∀ n, g ≤ n → n < g + d → runner n = RunResult.exited 0) →
      runner (g + d) = RunResult.dispatchError →
      (execLoopAux runner dev tok kl path g i m).invocations = d + 1 ∧
      (execLoopAux runner dev tok kl path g i m).records.length = d ∧
      (execLoopAux runner dev tok kl path g i m).pend = ProgEnd.exitFatal := by
  induction m with
  | zero =>
    intro g i d hd
    omega
  | succ m ih =>
    intro g i d hd hz hf
    cases d with
    | zero =>
      have h0 : runner g = RunResult.dispatchError := hf
      simp only [execLoopAux, h0]
      refine ⟨?_, ?_, ?_⟩ <;> simp
    | succ d =>
      have h0 : runner g = RunResult.exited 0 := hz g (Nat.le_refl g) (by omega)
      have hf' : runner (g + 1 + d) = RunResult.dispatchError := by
        have hgd : g + 1 + d = g + (d + 1) := by omega
        rw [hgd]
        exact hf
      have ihh := ih (g + 1) (i + 1) d (by omega)
        (fun n h1 h2 => hz n (by omega) (by omega)) hf'
      simp only [execLoopAux, h0, if_true]
      refine ⟨?_, ?_, ?_⟩
      · show (execLoopAux runner dev tok kl path (g + 1) (i + 1) m).invocations + 1 = _
        rw [ihh.1]
      · show (execLoopAux runner dev tok kl path (g + 1) (i + 1) m).records.length + 1 = _
        rw [ihh.2.1]
      · show (execLoopAux runner dev tok kl path (g + 1) (i + 1) m).pend = _
        exact ihh.2.2

/-- Sweep-level stop-on-first-failure: if invocations with global
ordinal below `k` succeed and the `k`-th reports nonzero returncode
`c`, and ordinal `k` falls inside the remaining window of the key list
`ks` started at global ordinal `g`, then exactly `k - g` invocations
and records are produced by the remaining sweep and the program exits
through the abort branch. -/
lemma sweepAux_first_fail (runner : Nat → RunResult) (loop_count : Int)
    (dev : Int) (tok : Option String) (path : String) (c : Int) (hc : c ≠ 0)
    (k : Nat) (hk : 1 ≤ k)
    (hz : ∀ n, n + 1 < k → runner n = RunResult.exited 0)
    (hf : runner (k - 1) = RunResult.exited c) (ks : List Int) :
    ∀ g : Nat, g ≤ k - 1 → k - 1 < g + ks.length * loop_count.toNat →
      (sweepAux runner loop_count dev tok path g ks).invocations = k - g ∧
      (sweepAux runner loop_count dev tok path g ks).records.length = k - g ∧
      ∃ j, (sweepAux runner loop_count dev tok path g ks).pend =
        ProgEnd.exitAbort j c := by
  induction ks with
  | nil =>
    intro g hg hw
    simp only [List.length_nil, Nat.zero_mul] at hw
    omega
  | cons key ks ih =>
    intro g hg hw
    have hlen1 : (key :: ks).length * loop_count.toNat =
        loop_count.toNat + ks.length * loop_count.toNat := by
      rw [List.length_cons, Nat.succ_mul]
      omega
    simp only [sweepAux, executionLoop]
    by_cases hcase : k - 1 < g + loop_count.toNat
    · have hfail := execLoopAux_first_fail runner dev tok (KeyLen.numKey key) path c hc
        loop_count.toNat g 0 (k - 1 - g) (by omega)
        (fun n h1 h2 => hz n (by omega))
        (by have hgg : g + (k - 1 - g) = k - 1 := by omega
            rw [hgg]
            exact hf)
      have hne : ¬ ((execLoopAux runner dev tok (KeyLen.numKey key) path g 0
          loop_count.toNat).pend = ProgEnd.returned) := by
        rw [hfail.2.2]
        exact fun hcon => ProgEnd.noConfusion hcon
      rw [if_neg hne]
      refine ⟨?_, ?_, ⟨0 + 1 + (k - 1 - g), ?_⟩⟩
      · show (execLoopAux runner dev tok (KeyLen.numKey key) path g 0
            loop_count.toNat).invocations = k - g
        rw [hfail.1]
        omega
      · show (execLoopAux runner dev tok (KeyLen.numKey key) path g 0
            loop_count.toNat).records.length = k - g
        rw [hfail.2.1]
        omega
      · exact hfail.2.2
    · have hzero := execLoopAux_all_zero runner dev tok (KeyLen.numKey key) path
        loop_count.toNat g 0 (fun n h1 h2 => hz n (by omega))
      have ihh := ih (g + loop_count.toNat) (by omega) (by rw [hlen1] at hw; omega)
      simp only [hzero, eq_self_iff_true, if_true]
      refine ⟨?_, ?_, ?_⟩
      · show loop_count.toNat + (sweepAux runner loop_count dev tok path
            (g + loop_count.toNat) ks).invocations = k - g
        rw [ihh.1]
        omega
      · show ((List.range loop_count.toNat).map _ ++ (sweepAux runner loop_count dev tok path
            (g + loop_count.toNat) ks).records).length = k - g
        rw [List.length_append, List.length_map, List.length_range, ihh.2.1]
        omega
      · show ∃ j, (sweepAux runner loop_count dev tok path
            (g + loop_count.toNat) ks).pend = ProgEnd.exitAbort j c
        exact ihh.2.2

/-- Sweep-level fatal dispatch failure: if the invocations with global
index below `f` succeed and the invocation with global index `f` cannot
be dispatched, with `f` inside the remaining window of the key list
`ks` started at global ordinal `g`, then the remaining sweep attempts
exactly `f - g + 1` invocations, produces `f - g` records, and the
program exits through the exception branch. -/
lemma sweepAux_dispatch_fail (runner : Nat → RunResult) (loop_count : Int)
    (dev : Int) (tok : Option String) (path : String) (f : Nat)
    (hz : ∀ n, n < f → runner n = RunResult.exited 0)
    (hf : runner f = RunResult.dispatchError) (ks : List Int) :
    ∀ g : Nat, g ≤ f → f < g + ks.length * loop_count.toNat →
      (sweepAux runner loop_count dev tok path g ks).invocations = f - g + 1 ∧
      (sweepAux runner loop_count dev tok path g ks).records.length = f - g ∧
      (sweepAux runner loop_count dev tok path g ks).pend = ProgEnd.exitFatal := by
  induction ks with
  | nil =>
    intro g hg hw
    simp only [List.length_nil, Nat.zero_mul] at hw
    omega
  | cons key ks ih =>
    intro g hg hw
    have hlen1 : (key :: ks).length * loop_count.toNat =
        loop_count.toNat + ks.length * loop_count.toNat := by
      rw [List.length_cons, Nat.succ_mul]
      omega
    simp only [sweepAux, executionLoop]
    by_cases hcase : f < g + loop_count.toNat
    · have hfail := execLoopAux_dispatch_fail runner dev tok (KeyLen.numKey key) path
        loop_count.toNat g 0 (f - g) (by omega)
        (fun n h1 h2 => hz n (by omega))
        (by have hgg : g + (f - g) = f := by omega
            rw [hgg]
            exact hf)
      have hne : ¬ ((execLoopAux runner dev tok (KeyLen.numKey key) path g 0
          loop_count.toNat).pend = ProgEnd.returned) := by
        rw [hfail.2.2]
        exact fun hcon => ProgEnd.noConfusion hcon
      rw [if_neg hne]
      refine ⟨?_, ?_, ?_⟩
      · show (execLoopAux runner dev tok (KeyLen.numKey key) path g 0
            loop_count.toNat).invocations = f - g + 1
        rw [hfail.1]
      · show (execLoopAux runner dev tok (KeyLen.numKey key) path g 0
            loop_count.toNat).records.length = f - g
        rw [hfail.2.1]
      · exact hfail.2.2
    · have hzero := execLoopAux_all_zero runner dev tok (KeyLen.numKey key) path
        loop_count.toNat g 0 (fun n h1 h2 => hz n (by omega))
      have ihh := ih (g + loop_count.toNat) (by omega) (by rw [hlen1] at hw; omega)
      simp only [hzero, eq_self_iff_true, if_true]
      refine ⟨?_, ?_, ?_⟩
      · show loop_count.toNat + (sweepAux runner loop_count dev tok path
            (g + loop_count.toNat) ks).invocations = f - g + 1
        rw [ihh.1]
        omega
      · show ((List.range loop_count.toNat).map _ ++ (sweepAux runner loop_count dev tok path
            (g + loop_count.toNat) ks).records).length = f - g
        rw [List.length_append, List.length_map, List.length_range, ihh.2.1]
        omega
      · show (sweepAux runner loop_count dev tok path
            (g + loop_count.toNat) ks).pend = ProgEnd.exitFatal
        exact ihh.2.2

/-- C1: stop-on-first-failure invariant, for every sweep mode (Fixed,
Example, default, or Range key length): if the invocations with global
ordinal below `k` all report exit status 0 and the invocation at global
ordinal `k` reports a nonzero status `c`, with `k` within the planned
invocation budget, then the sweep performs exactly `k` invocations,
creates exactly `k` records, and the program exits through the abort
branch with returncode `c` — no later repetition and no later
key-length value is attempted. -/
theorem C1_stop_on_first_failure (runner : Nat → RunResult) (loop_count : Int)
    (dev : Int) (tok : Option String) (key_length : KeyLen) (path : String)
    (b e : Int) (k : Nat) (c : Int) (hk : 1 ≤ k) (hc : c ≠ 0)
    (hz : ∀ n, n + 1 < k → runner n = RunResult.exited 0)
    (hf : runner (k - 1) = RunResult.exited c)
    (hle : k ≤ plannedTotal loop_count key_length b e) :
    (run_notebook_in_loop runner true loop_count dev tok key_length path b e).invocations = k ∧
    (run_notebook_in_loop runner true loop_count dev tok key_length path b e).records.length = k ∧
    ∃ j, (run_notebook_in_loop runner true loop_count dev tok key_length path b e).pend =
      ProgEnd.exitAbort j c := by
  by_cases hkl : key_length = KeyLen.rangeKey
  · subst hkl
    simp only [plannedTotal, eq_self_iff_true, if_true] at hle
    have hres := sweepAux_first_fail runner loop_count dev tok path c hc k hk hz hf
      (rangeKeys b e) 0 (by omega) (by omega)
    have hrun : run_notebook_in_loop runner true loop_count dev tok KeyLen.rangeKey path b e =
        ⟨(sweepAux runner loop_count dev tok path 0 (rangeKeys b e)).records,
          (sweepAux runner loop_count dev tok path 0 (rangeKeys b e)).invocations, false,
          (sweepAux runner loop_count dev tok path 0 (rangeKeys b e)).pend⟩ := rfl
    rw [hrun]
    refine ⟨?_, ?_, ?_⟩
    · show (sweepAux runner loop_count dev tok path 0 (rangeKeys b e)).invocations = k
      rw [hres.1]
      omega
    · show (sweepAux runner loop_count dev tok path 0 (rangeKeys b e)).records.length = k
      rw [hres.2.1]
      omega
    · exact hres.2.2
  · simp only [plannedTotal, if_neg hkl] at hle
    have hres := execLoopAux_first_fail runner dev tok key_length path c hc
      loop_count.toNat 0 0 (k - 1) (by omega)
      (fun n h1 h2 => hz n (by omega))
      (by rw [Nat.zero_add]; exact hf)
    have hrun : run_notebook_in_loop runner true loop_count dev tok key_length path b e =
        ⟨(executionLoop runner loop_count dev tok key_length path 0).records,
          (executionLoop runner loop_count dev tok key_length path 0).invocations, false,
          (executionLoop runner loop_count dev tok key_length path 0).pend⟩ := by
      unfold run_notebook_in_loop
      rw [if_neg (show ¬(true = false) from fun hcon => Bool.noConfusion hcon), if_neg hkl]
    rw [hrun]
    refine ⟨?_, ?_, ⟨0 + 1 + (k - 1), ?_⟩⟩
    · show (execLoopAux runner dev tok key_length path 0 0 loop_count.toNat).invocations = k
      rw [hres.1]
      omega
    · show (execLoopAux runner dev tok key_length path 0 0 loop_count.toNat).records.length = k
      rw [hres.2.1]
      omega
    · exact hres.2.2

/-- C1 witness: range sweep over keys 1 and 2 with two repetitions per
key; the third invocation is the first to report nonzero status 7: the
sweep stops with exactly 3 invocations and 3 records. -/
theorem C1_stop_on_first_failure_witness :
    (run_notebook_in_loop (runnerFailAt 2 7) true 2 0 Option.none KeyLen.rangeKey
      "w1.csv" 1 2).invocations = 3 ∧
    (run_notebook_in_loop (runnerFailAt 2 7) true 2 0 Option.none KeyLen.rangeKey
      "w1.csv" 1 2).records.length = 3 ∧
    ∃ j, (run_notebook_in_loop (runnerFailAt 2 7) true 2 0 Option.none KeyLen.rangeKey
      "w1.csv" 1 2).pend = ProgEnd.exitAbort j 7 :=
  C1_stop_on_first_failure (runnerFailAt 2 7) 2 0 Option.none KeyLen.rangeKey
    "w1.csv" 1 2 3 7 (by decide) (by decide)
    (fun n hn => by unfold runnerFailAt; rw [if_pos (by omega)])
    (by decide) (by decide)

/-- C7: a dispatch failure (the runner cannot be started at all) is
fatal and distinct from a failing run: if the invocations with global
index below `f` succeed and the invocation with global index `f`
raises at dispatch, with `f` within the planned budget, the whole sweep
stops there — `f + 1` attempts, `f` records — and the program exits
through the exception branch `ProgEnd.exitFatal`, which differs from
every `ProgEnd.exitAbort` state a reported failing run produces. -/
theorem C7_dispatch_error_fatal (runner : Nat → RunResult) (loop_count : Int)
    (dev : Int) (tok : Option String) (key_length : KeyLen) (path : String)
    (b e : Int) (f : Nat)
    (hz : ∀ n, n < f → runner n = RunResult.exited 0)
    (hf : runner f = RunResult.dispatchError)
    (hlt : f < plannedTotal loop_count key_length b e) :
    (run_notebook_in_loop runner true loop_count dev tok key_length path b e).invocations = f + 1 ∧
    (run_notebook_in_loop runner true loop_count dev tok key_length path b e).records.length = f ∧
    (run_notebook_in_loop runner true loop_count dev tok key_length path b e).pend =
      ProgEnd.exitFatal ∧
    ∀ j rc, (run_notebook_in_loop runner true loop_count dev tok key_length path b e).pend ≠
      ProgEnd.exitAbort j rc := by
  by_cases hkl : key_length = KeyLen.rangeKey
  · subst hkl
    simp only [plannedTotal, eq_self_iff_true, if_true] at hlt
    have hres := sweepAux_dispatch_fail runner loop_count dev tok path f hz hf
      (rangeKeys b e) 0 (by omega) (by omega)
    have hrun : run_notebook_in_loop runner true loop_count dev tok KeyLen.rangeKey path b e =
        ⟨(sweepAux runner loop_count dev tok path 0 (rangeKeys b e)).records,
          (sweepAux runner loop_count dev tok path 0 (rangeKeys b e)).invocations, false,
          (sweepAux runner loop_count dev tok path 0 (rangeKeys b e)).pend⟩ := rfl
    rw [hrun]
    refine ⟨?_, ?_, ?_, ?_⟩
    · show (sweepAux runner loop_count dev tok path 0 (rangeKeys b e)).invocations = f + 1
      rw [hres.1]
      omega
    · show (sweepAux runner loop_count dev tok path 0 (rangeKeys b e)).records.length = f
      rw [hres.2.1]
      omega
    · exact hres.2.2
    · intro j rc
      show (sweepAux runner loop_count dev tok path 0 (rangeKeys b e)).pend ≠ _
      rw [hres.2.2]
      exact fun hcon => ProgEnd.noConfusion hcon
  · simp only [plannedTotal, if_neg hkl] at hlt
    have hres := execLoopAux_dispatch_fail runner dev tok key_length path
      loop_count.toNat 0 0 f (by omega)
      (fun n h1 h2 => hz n (by omega))
      (by rw [Nat.zero_add]; exact hf)
    have hrun : run_notebook_in_loop runner true loop_count dev tok key_length path b e =
        ⟨(executionLoop runner loop_count dev tok key_length path 0).records,
          (executionLoop runner loop_count dev tok key_length path 0).invocations, false,
          (executionLoop runner loop_count dev tok key_length path 0).pend⟩ := by
      unfold run_notebook_in_loop
      rw [if_neg (show ¬(true = false) from fun hcon => Bool.noConfusion hcon), if_neg hkl]
    rw [hrun]
    refine ⟨?_, ?_, ?_, ?_⟩
    · show (execLoopAux runner dev tok key_length path 0 0 loop_count.toNat).invocations = f + 1
      rw [hres.1]
    · show (execLoopAux runner dev tok key_length path 0 0 loop_count.toNat).records.length = f
      rw [hres.2.1]
    · exact hres.2.2
    · intro j rc
      show (execLoopAux runner dev tok key_length path 0 0 loop_count.toNat).pend ≠ _
      rw [hres.2.2]
      exact fun hcon => ProgEnd.noConfusion hcon

/-- C7 witness: Fixed key length 5 with four planned repetitions; the
first invocation succeeds and the second cannot be dispatched: the
sweep ends fatally after 2 attempts with a single record, in a state
distinct from every abort state. -/
theorem C7_dispatch_error_fatal_witness :
    (run_notebook_in_loop (runnerDispatchAt 1) true 4 0 Option.none (KeyLen.numKey 5)
      "w2.csv" 0 0).invocations = 2 ∧
    (run_notebook_in_loop (runnerDispatchAt 1) true 4 0 Option.none (KeyLen.numKey 5)
      "w2.csv" 0 0).records.length = 1 ∧
    (run_notebook_in_loop (runnerDispatchAt 1) true 4 0 Option.none (KeyLen.numKey 5)
      "w2.csv" 0 0).pend = ProgEnd.exitFatal ∧
    ∀ j rc, (run_notebook_in_loop (runnerDispatchAt 1) true 4 0 Option.none (KeyLen.numKey 5)
      "w2.csv" 0 0).pend ≠ ProgEnd.exitAbort j rc :=
  C7_dispatch_error_fatal (runnerDispatchAt 1) 4 0 Option.none (KeyLen.numKey 5)
    "w2.csv" 0 0 1
    (fun n hn => by unfold runnerDispatchAt; rw [if_pos (by omega)])
    (by decide) (by decide)
